import Mathlib

/-!
# GroceryVault: Intent Authorization & Spend-Policy Engine

Shallow embedding of the `GroceryVault` Solidity contract
(`src/unnamed/part_000`) and proofs about its intent-execution,
policy, spend-window and replay-protection logic.

Modelling conventions:
* Addresses, timestamps and token amounts are `Nat` (Solidity `uint256`
  arithmetic is checked in 0.8.x, so additions never silently wrap; all
  additions here occur on values far below `2 ^ 256`, and `Nat` models
  them faithfully).
* `keccak256`-based intent hashing (`_hashIntent`) binds every field of
  the `Intent` struct plus a per-deployment domain separator; we model
  the hash as an injective encoding, i.e. the `Intent` record itself is
  the replay key of the `intentUsed` map.
* `ecrecover` is an external cryptographic primitive; it is modelled as
  an abstract recovery oracle `recover : Intent → List Nat → Nat`
  mapping the digest (determined by the intent) and the 65 signature
  bytes to an address.
* The ERC20 `transfer` call is modelled as an abstract boolean oracle
  `transfer : Nat → Nat → Nat → Bool` of (token, to, amount).
* A Solidity `require` failure reverts the whole transaction; the step
  functions therefore return `Except Err VaultState` where `.error`
  carries no state, and `executeIntentTx` gives the transaction-level
  semantics in which a revert leaves the caller-visible state at the
  pre-call state.
-/

/-- Spending policy per account (struct `Policy`). -/
structure Policy where
  monthlyCap : Nat
  weeklyCap : Nat
  perTxCap : Nat
  requireUserSig : Bool
  deriving DecidableEq, Repr

/-- A proposed expenditure (struct `Intent`).  Immutable value; its
consumption, not the intent itself, is recorded. -/
structure Intent where
  user : Nat
  merchant : Nat
  token : Nat
  amount : Nat
  deadline : Nat
  cartHash : Nat
  nonce : Nat
  deriving DecidableEq, Repr

/-- Rolling spend-window accounting (struct `SpendWindow`). -/
structure SpendWindow where
  weekStart : Nat
  weekSpent : Nat
  monthStart : Nat
  monthSpent : Nat
  deriving DecidableEq, Repr

/-- The contract's storage: policies, allowlists, spend windows, nonces
and the consumed-intent set (`intentUsed`, keyed by the intent hash,
modelled by the intent record itself). -/
structure VaultState where
  policyOf : Nat → Policy
  merchantAllowed : Nat → Nat → Bool
  agentAllowed : Nat → Nat → Bool
  spend : Nat → SpendWindow
  nonces : Nat → Nat
  intentUsed : Intent → Bool

/-- Error taxonomy of the engine (spec §7); each variant corresponds to
one `require` string of the contract. -/
inductive Err where
  | invalidPolicy
  | unauthorized
  | expired
  | invalidIntent
  | perTxCapExceeded
  | weeklyCapExceeded
  | monthlyCapExceeded
  | merchantNotAllowed
  | staleNonce
  | intentAlreadyUsed
  | transferFailed
  deriving DecidableEq, Repr

/-- Seconds in 7 days (Solidity `7 days`). -/
def weekLen : Nat := 7 * 86400

/-- Seconds in 30 days (Solidity `30 days`). -/
def monthLen : Nat := 30 * 86400

/-- `_verifyUserSig`: length-gate then `ecrecover` comparison against
the intent's user.  A signature of length other than 65 is rejected
without consulting the recovery oracle; the function is total, so it
never throws on malformed input. -/
def verifyUserSig (recover : Intent → List Nat → Nat)
    (intent : Intent) (sig : List Nat) : Bool :=
  if sig.length ≠ 65 then false
  else decide (recover intent sig = intent.user)

/-- The authorization decision of `executeIntent` (lines 159–177):
the nested `require` block either lets execution continue (`true`) or
reverts with an authorization error (`false`). -/
def authOk (p : Policy) (callerIsUser callerIsAgent : Bool)
    (sigValid : Bool) (sigLen : Nat) : Bool :=
  if p.requireUserSig then sigValid
  else if !(callerIsUser || callerIsAgent) then sigValid
  else if sigLen > 0 then sigValid
  else true

/-- `_rollWindowsIfNeeded`: lazily initialize the window on first use,
otherwise roll the week and month windows independently once their
durations have elapsed. -/
def rollWindowsIfNeeded (w : SpendWindow) (now : Nat) : SpendWindow :=
  if w.weekStart = 0 then
    { w with weekStart := now, monthStart := now }
  else
    let w1 := if w.weekStart + weekLen ≤ now then
        { w with weekStart := now, weekSpent := 0 } else w
    if w1.monthStart + monthLen ≤ now then
      { w1 with monthStart := now, monthSpent := 0 } else w1

/-- `_viewRolledWeek`: the would-be rolled week window, computed without
mutating storage. -/
def viewRolledWeek (weekStart weekSpent now : Nat) : Nat × Nat :=
  if weekStart = 0 then (0, 0)
  else if weekStart + weekLen ≤ now then (now, 0)
  else (weekStart, weekSpent)

/-- `_viewRolledMonth`: the would-be rolled month window, computed
without mutating storage. -/
def viewRolledMonth (monthStart monthSpent now : Nat) : Nat × Nat :=
  if monthStart = 0 then (0, 0)
  else if monthStart + monthLen ≤ now then (now, 0)
  else (monthStart, monthSpent)

/-- View `remainingWeekly`: weekly cap minus the would-be rolled spent
amount, clamped at zero.  Pure: takes the state, returns only a number. -/
def remainingWeekly (s : VaultState) (user now : Nat) : Nat :=
  let p := s.policyOf user
  let w := s.spend user
  let spent := (viewRolledWeek w.weekStart w.weekSpent now).2
  if p.weeklyCap ≤ spent then 0 else p.weeklyCap - spent

/-- View `remainingMonthly`: monthly cap minus the would-be rolled
spent amount, clamped at zero. -/
def remainingMonthly (s : VaultState) (user now : Nat) : Nat :=
  let p := s.policyOf user
  let w := s.spend user
  let spent := (viewRolledMonth w.monthStart w.monthSpent now).2
  if p.monthlyCap ≤ spent then 0 else p.monthlyCap - spent

/-- `setPolicy`: sanity-check the caps and store the policy for the
caller's account. -/
def setPolicy (s : VaultState) (sender : Nat) (p : Policy) :
    Except Err VaultState :=
  if p.perTxCap ≤ p.weeklyCap ∧ p.perTxCap ≤ p.monthlyCap then
    .ok { s with policyOf := Function.update s.policyOf sender p }
  else .error .invalidPolicy

/-- `setMerchantAllowed`: toggle a merchant-allowlist flag for the
caller's own account. -/
def setMerchantAllowed (s : VaultState) (sender merchant : Nat)
    (allowed : Bool) : VaultState :=
  { s with merchantAllowed := fun u m =>
      if u = sender ∧ m = merchant then allowed else s.merchantAllowed u m }

/-- `setAgentAllowed`: toggle an agent-allowlist flag for the caller's
own account. -/
def setAgentAllowed (s : VaultState) (sender agent : Nat)
    (allowed : Bool) : VaultState :=
  { s with agentAllowed := fun u a =>
      if u = sender ∧ a = agent then allowed else s.agentAllowed u a }

/-- `withdraw`: no ownership check; issues a token transfer of `amount`
to `to`.  Returns the unchanged vault storage together with the
(token, to, amount) transfer request issued to the external ledger. -/
def withdraw (s : VaultState) (sender token amount toAddr : Nat)
    (transfer : Nat → Nat → Nat → Bool) :
    Except Err (VaultState × Nat × Nat × Nat) :=
  if toAddr ≠ 0 then
    if amount > 0 then
      if transfer token toAddr amount then .ok (s, token, toAddr, amount)
      else .error .transferFailed
    else .error .invalidIntent
  else .error .invalidIntent

/-- The net storage effect of a successful `executeIntent` commit:
mark the intent hash consumed, store the updated spend window `w`
with both counters incremented by the amount, and advance the nonce. -/
def applyCommit (s : VaultState) (intent : Intent) (w : SpendWindow) :
    VaultState :=
  { s with
    intentUsed := fun i => if i = intent then true else s.intentUsed i,
    spend := Function.update s.spend intent.user
      { w with weekSpent := w.weekSpent + intent.amount,
               monthSpent := w.monthSpent + intent.amount },
    nonces := Function.update s.nonces intent.user
      (s.nonces intent.user + 1) }

/-- `executeIntent` (lines 138–195): validation in the source's order —
deadline, user ≠ 0, amount > 0, per-tx cap, merchant allowlist, nonce,
consumed-set, authorization, window roll, weekly cap, monthly cap —
then commit and the external transfer.  A `require` failure reverts,
so an `.error` result carries no state. -/
def executeIntent (s : VaultState) (sender now : Nat) (intent : Intent)
    (userSig : List Nat) (transfer : Nat → Nat → Nat → Bool)
    (recover : Intent → List Nat → Nat) : Except Err VaultState :=
  if now ≤ intent.deadline then
    if intent.user ≠ 0 then
      if intent.amount > 0 then
        if intent.amount ≤ (s.policyOf intent.user).perTxCap then
          if s.merchantAllowed intent.user intent.merchant then
            if intent.nonce = s.nonces intent.user then
              if s.intentUsed intent = false then
                if authOk (s.policyOf intent.user) (decide (sender = intent.user))
                    (s.agentAllowed intent.user sender)
                    (verifyUserSig recover intent userSig)
                    userSig.length then
                  if (rollWindowsIfNeeded (s.spend intent.user) now).weekSpent
                      + intent.amount ≤ (s.policyOf intent.user).weeklyCap then
                    if (rollWindowsIfNeeded (s.spend intent.user) now).monthSpent
                        + intent.amount ≤ (s.policyOf intent.user).monthlyCap then
                      if transfer intent.token intent.merchant intent.amount
                      then .ok (applyCommit s intent
                        (rollWindowsIfNeeded (s.spend intent.user) now))
                      else .error .transferFailed
                    else .error .monthlyCapExceeded
                  else .error .weeklyCapExceeded
                else .error .unauthorized
              else .error .intentAlreadyUsed
            else .error .staleNonce
          else .error .merchantNotAllowed
        else .error .perTxCapExceeded
      else .error .invalidIntent
    else .error .invalidIntent
  else .error .expired

/-- Transaction-level semantics of `executeIntent`: an EVM revert
restores the pre-call storage, so a failing call leaves the state
unchanged and reports the error. -/
def executeIntentTx (s : VaultState) (sender now : Nat) (intent : Intent)
    (userSig : List Nat) (transfer : Nat → Nat → Nat → Bool)
    (recover : Intent → List Nat → Nat) : VaultState × Option Err :=
  match executeIntent s sender now intent userSig transfer recover with
  | .ok s2 => (s2, none)
  | .error e => (s, some e)

/-- Spec-side authorization decision table (§4.4, design note §9):
inputs are `requireUserSig`, whether the caller is privileged (owner or
allowlisted agent), whether a signature is supplied, and whether it
verifies against the account owner. -/
def specAuth (requireUserSig privileged sigSupplied sigValid : Bool) :
    Bool :=
  if requireUserSig then sigValid
  else if privileged then (if sigSupplied then sigValid else true)
  else sigValid

/-- Reachability invariant of a stored spend window: if either window
start is unset, the window is entirely fresh.  The zero window of a
new account satisfies it, and `executeIntent` preserves it at every
positive timestamp (see `executeIntent_preserves_windowInv`), so every
window the contract stores satisfies it; it supplies the hypotheses of
`remaining_views_match_roll`. -/
def WindowInv (w : SpendWindow) : Prop :=
  w.weekStart = 0 ∨ w.monthStart = 0 →
    w.weekStart = 0 ∧ w.monthStart = 0 ∧ w.weekSpent = 0 ∧ w.monthSpent = 0

/-- A concrete vault state for witnesses: account 1 has policy
{monthly 300, weekly 100, perTx 50, requireUserSig false}, merchant 2
and agent 4 allowlisted, fresh spend window, nonce 0, nothing consumed. -/
def demoState : VaultState :=
  ⟨fun _ => ⟨300, 100, 50, false⟩,
   fun u m => decide (u = 1 ∧ m = 2),
   fun u a => decide (u = 1 ∧ a = 4),
   fun _ => ⟨0, 0, 0, 0⟩, fun _ => 0, fun _ => false⟩

/-- `demoState` with `requireUserSig = true` for account 1's policy. -/
def demoStateSig : VaultState :=
  { demoState with policyOf := fun _ => ⟨300, 100, 50, true⟩ }

/-- A concrete intent for witnesses: account 1 pays merchant 2 an
amount of 40 in token 3, deadline 1000, nonce 0. -/
def demoIntent : Intent := ⟨1, 2, 3, 40, 1000, 0, 0⟩

/-- The committed state of the witness execution: agent 4 executes
`demoIntent` on `demoState` at time 10. -/
def demoCommitted : VaultState :=
  applyCommit demoState demoIntent
    (rollWindowsIfNeeded (demoState.spend demoIntent.user) 10)


/-- C9: the signature verifier accepts only 65-byte signatures; any
other length (including the empty signature) yields `false` without
consulting the recovery oracle (the result is the same for every
oracle), and a `true` result means the recovered identity equals the
intent's user.  The function is total, so malformed input returns
`false` rather than throwing. -/
theorem verifyUserSig_spec (intent : Intent) (sig : List Nat)
    (recover recover2 : Intent → List Nat → Nat) :
    (sig.length ≠ 65 →
      verifyUserSig recover intent sig = false
      ∧ verifyUserSig recover intent sig = verifyUserSig recover2 intent sig)
    ∧ (verifyUserSig recover intent sig = true →
      sig.length = 65 ∧ recover intent sig = intent.user) := by
  constructor
  · intro h
    simp [verifyUserSig, h]
  · intro h
    by_cases hl : sig.length = 65
    · refine ⟨hl, ?_⟩
      simpa [verifyUserSig, hl] using h
    · simp [verifyUserSig, hl] at h

/-- Witness for C9 at concrete inputs: the empty signature is rejected,
and a 65-byte signature whose recovery matches the user verifies. -/
theorem verifyUserSig_spec_witness :
    verifyUserSig (fun _ _ => 1) ⟨1, 2, 3, 4, 5, 6, 0⟩ [] = false
    ∧ (List.replicate 65 0).length = 65 := by
  refine ⟨((verifyUserSig_spec ⟨1, 2, 3, 4, 5, 6, 0⟩ []
    (fun _ _ => 1) (fun _ _ => 2)).1 (by decide)).1, ?_⟩
  exact ((verifyUserSig_spec ⟨1, 2, 3, 4, 5, 6, 0⟩ (List.replicate 65 0)
    (fun _ _ => 1) (fun _ _ => 2)).2 (by decide)).1

/-- C7: `setPolicy` rejects a policy whose per-transaction cap exceeds
the weekly or the monthly cap with `InvalidPolicy`; otherwise it
replaces exactly the caller's stored policy (immediately observable,
all other storage untouched), so the stored policy always satisfies
`perTxCap ≤ weeklyCap` and `perTxCap ≤ monthlyCap` after a successful
`setPolicy`. -/
theorem setPolicy_spec (s : VaultState) (sender : Nat) (p : Policy) :
    ((p.weeklyCap < p.perTxCap ∨ p.monthlyCap < p.perTxCap) →
      setPolicy s sender p = .error .invalidPolicy)
    ∧ (∀ s2, setPolicy s sender p = .ok s2 →
      s2.policyOf sender = p
      ∧ (s2.policyOf sender).perTxCap ≤ (s2.policyOf sender).weeklyCap
      ∧ (s2.policyOf sender).perTxCap ≤ (s2.policyOf sender).monthlyCap
      ∧ (∀ u, u ≠ sender → s2.policyOf u = s.policyOf u)
      ∧ s2.merchantAllowed = s.merchantAllowed
      ∧ s2.agentAllowed = s.agentAllowed
      ∧ s2.spend = s.spend
      ∧ s2.nonces = s.nonces
      ∧ s2.intentUsed = s.intentUsed) := by
  constructor
  · intro h
    have : ¬ (p.perTxCap ≤ p.weeklyCap ∧ p.perTxCap ≤ p.monthlyCap) := by omega
    simp [setPolicy, this]
  · intro s2 h
    by_cases hc : p.perTxCap ≤ p.weeklyCap ∧ p.perTxCap ≤ p.monthlyCap
    · simp only [setPolicy, if_pos hc, Except.ok.injEq] at h
      subst h
      refine ⟨Function.update_same _ _ _, ?_, ?_, ?_, rfl, rfl, rfl, rfl, rfl⟩
      · simpa [Function.update_same] using hc.1
      · simpa [Function.update_same] using hc.2
      · intro u hu
        simp [Function.update_noteq hu]
    · simp [setPolicy, hc] at h

/-- Witness for C7 at concrete inputs: a policy with
`perTxCap = 5 > weeklyCap = 3` is rejected, and a valid policy is
stored verbatim for the caller. -/
theorem setPolicy_spec_witness :
    setPolicy
      ⟨fun _ => ⟨0, 0, 0, false⟩, fun _ _ => false, fun _ _ => false,
        fun _ => ⟨0, 0, 0, 0⟩, fun _ => 0, fun _ => false⟩ 1
      ⟨10, 3, 5, false⟩ = .error .invalidPolicy
    ∧ (match setPolicy
        ⟨ fun _ => ⟨0, 0, 0, false⟩, fun _ _ => false, fun _ _ => false,
          fun _ => ⟨0, 0, 0, 0⟩, fun _ => 0, fun _ => false⟩ 1
        ⟨10, 8, 5, false⟩ with
      | .ok s2 => s2.policyOf 1 = ⟨10, 8, 5, false⟩
      | .error _ => False) := by
  constructor
  · exact (setPolicy_spec _ 1 ⟨10, 3, 5, false⟩).1 (Or.inl (by decide))
  · exact ((setPolicy_spec _ 1 ⟨10, 8, 5, false⟩).2 _ rfl).1

/-- C3: `withdraw` performs no ownership or authorization check.  Its
result depends only on (token, amount, to): any two callers get the
identical outcome on the same state, and any principal succeeds in
moving any positive amount of any token from the vault's pooled
balance to any non-zero address whenever the token transfer itself
succeeds, leaving the vault storage unchanged. -/
theorem withdraw_no_auth (s : VaultState)
    (sender1 sender2 token amount toAddr : Nat)
    (transfer : Nat → Nat → Nat → Bool) :
    withdraw s sender1 token amount toAddr transfer
      = withdraw s sender2 token amount toAddr transfer
    ∧ (toAddr ≠ 0 → 0 < amount → transfer token toAddr amount = true →
      withdraw s sender1 token amount toAddr transfer
        = .ok (s, token, toAddr, amount)) := by
  refine ⟨rfl, ?_⟩
  intro h1 h2 h3
  simp [withdraw, h1, h2, h3]

/-- Witness for C3 at concrete inputs: a caller who is not the account
owner (sender 9) withdraws 5 units of token 3 to address 7. -/
theorem withdraw_no_auth_witness :
    withdraw
      ⟨fun _ => ⟨0, 0, 0, false⟩, fun _ _ => false, fun _ _ => false,
        fun _ => ⟨0, 0, 0, 0⟩, fun _ => 0, fun _ => false⟩
      9 3 5 7 (fun _ _ _ => true)
      = .ok (⟨fun _ => ⟨0, 0, 0, false⟩, fun _ _ => false, fun _ _ => false,
          fun _ => ⟨0, 0, 0, 0⟩, fun _ => 0, fun _ => false⟩, 3, 7, 5) :=
  (withdraw_no_auth _ 9 1 3 5 7 (fun _ _ _ => true)).2
    (by decide) (by decide) rfl

/-- C8 counterexample: on a window whose `weekStart` is unset but whose
spent counters are non-zero, the initialization branch of
`_rollWindowsIfNeeded` sets both window starts to `now` but does not
zero the spent counters, contradicting "initializes both weekStart and
monthStart to now with zero spent". -/
theorem rollWindows_init_not_zeroing :
    (SpendWindow.mk 0 5 0 5).weekStart = 0
    ∧ rollWindowsIfNeeded (SpendWindow.mk 0 5 0 5) 100
        = SpendWindow.mk 100 5 100 5
    ∧ (rollWindowsIfNeeded (SpendWindow.mk 0 5 0 5) 100).weekSpent ≠ 0 := by
  refine ⟨rfl, ?_, by decide⟩
  decide

/-- C8 (amended): if `weekStart` is unset, the roll initializes both
window starts to `now` and returns, leaving the spent counters
unchanged (in particular, when they are zero — as in every window the
contract has written at a positive timestamp — the result is the fresh
zero window), and no caps are consulted; otherwise the week rolls
(start reset to `now`, spent reset to 0) exactly when
`now - weekStart ≥ 7` days and the month rolls exactly when
`now - monthStart ≥ 30` days, the two rollovers being independent of
each other. -/
theorem rollWindows_spec (w : SpendWindow) (now : Nat) :
    (w.weekStart = 0 →
      rollWindowsIfNeeded w now = { w with weekStart := now, monthStart := now })
    ∧ (w.weekStart = 0 → w.weekSpent = 0 → w.monthSpent = 0 →
      rollWindowsIfNeeded w now = ⟨now, 0, now, 0⟩)
    ∧ (w.weekStart ≠ 0 →
      (rollWindowsIfNeeded w now).weekStart
          = (if weekLen ≤ now - w.weekStart then now else w.weekStart)
      ∧ (rollWindowsIfNeeded w now).weekSpent
          = (if weekLen ≤ now - w.weekStart then 0 else w.weekSpent)
      ∧ (rollWindowsIfNeeded w now).monthStart
          = (if monthLen ≤ now - w.monthStart then now else w.monthStart)
      ∧ (rollWindowsIfNeeded w now).monthSpent
          = (if monthLen ≤ now - w.monthStart then 0 else w.monthSpent)) := by
  have hwpos : 0 < weekLen := by decide
  have hmpos : 0 < monthLen := by decide
  refine ⟨?_, ?_, ?_⟩
  · intro h0
    simp [rollWindowsIfNeeded, h0]
  · intro h0 h1 h2
    obtain ⟨ws, wsp, ms, msp⟩ := w
    simp only at h0 h1 h2
    subst h0 h1 h2
    simp [rollWindowsIfNeeded]
  · intro h0
    have hwiff : (w.weekStart + weekLen ≤ now) = (weekLen ≤ now - w.weekStart) := by
      apply propext; constructor <;> (intro; omega)
    have hmiff : (w.monthStart + monthLen ≤ now) = (monthLen ≤ now - w.monthStart) := by
      apply propext; constructor <;> (intro; omega)
    by_cases hwk : weekLen ≤ now - w.weekStart <;>
      by_cases hmn : monthLen ≤ now - w.monthStart <;>
      simp [rollWindowsIfNeeded, h0, hwiff, hmiff, hwk, hmn]

/-- Witness for C8's amended theorem at concrete inputs: a window with
`weekStart = 10` seen 8 days later rolls the week but not the month. -/
theorem rollWindows_spec_witness :
    rollWindowsIfNeeded ⟨0, 0, 0, 0⟩ 50 = ⟨50, 0, 50, 0⟩
    ∧ (rollWindowsIfNeeded ⟨10, 4, 10, 4⟩ (10 + 8 * 86400)).weekSpent = 0
    ∧ (rollWindowsIfNeeded ⟨10, 4, 10, 4⟩ (10 + 8 * 86400)).monthSpent
        = (if monthLen ≤ (10 + 8 * 86400) - 10 then 0 else 4) := by
  refine ⟨(rollWindows_spec ⟨0, 0, 0, 0⟩ 50).2.1 rfl rfl rfl, ?_, ?_⟩
  · rw [((rollWindows_spec ⟨10, 4, 10, 4⟩ (10 + 8 * 86400)).2.2 (by decide)).2.1]
    decide
  · exact ((rollWindows_spec ⟨10, 4, 10, 4⟩ (10 + 8 * 86400)).2.2 (by decide)).2.2.2

/-- The weekly remainder computed from the non-mutating view equals the
cap-minus-spent of the rolled window, provided an unset week start
carries no recorded week spending. -/
lemma week_remainder_roll (ws wsp ms msp now cap : Nat)
    (hw : ws = 0 → wsp = 0) :
    (if cap ≤ (viewRolledWeek ws wsp now).2 then 0
      else cap - (viewRolledWeek ws wsp now).2)
      = cap - (rollWindowsIfNeeded ⟨ws, wsp, ms, msp⟩ now).weekSpent := by
  simp only [viewRolledWeek, rollWindowsIfNeeded]
  split_ifs <;> simp_all <;> omega

/-- The monthly remainder computed from the non-mutating view equals
the cap-minus-spent of the rolled window, provided unset starts carry
no recorded month spending. -/
lemma month_remainder_roll (ws wsp ms msp now cap : Nat)
    (hw : ws = 0 → msp = 0) (hm : ms = 0 → msp = 0) :
    (if cap ≤ (viewRolledMonth ms msp now).2 then 0
      else cap - (viewRolledMonth ms msp now).2)
      = cap - (rollWindowsIfNeeded ⟨ws, wsp, ms, msp⟩ now).monthSpent := by
  simp only [viewRolledMonth, rollWindowsIfNeeded]
  split_ifs <;> simp_all <;> omega

/-- C10: `remainingWeekly` and `remainingMonthly` are pure projections
(they take the state and return only a number, mutating nothing) and,
on every window the contract can store — one whose unset starts carry
no recorded spending — each equals the policy cap minus the spent
amount the stored window would hold after `_rollWindowsIfNeeded` at
the current time, clamped at zero (`Nat` subtraction truncates): the
view computation coincides with rolling a copy of the window and
reading the remainder. -/
theorem remaining_views_match_roll (s : VaultState) (user now : Nat)
    (hw : (s.spend user).weekStart = 0 →
      (s.spend user).weekSpent = 0 ∧ (s.spend user).monthSpent = 0)
    (hm : (s.spend user).monthStart = 0 → (s.spend user).monthSpent = 0) :
    remainingWeekly s user now
      = (s.policyOf user).weeklyCap
          - (rollWindowsIfNeeded (s.spend user) now).weekSpent
    ∧ remainingMonthly s user now
      = (s.policyOf user).monthlyCap
          - (rollWindowsIfNeeded (s.spend user) now).monthSpent := by
  rcases hsw : s.spend user with ⟨ws, wsp, ms, msp⟩
  rw [hsw] at hw hm
  simp only at hw hm
  constructor
  · simp only [remainingWeekly, hsw]
    exact week_remainder_roll ws wsp ms msp now _ (fun h => (hw h).1)
  · simp only [remainingMonthly, hsw]
    exact month_remainder_roll ws wsp ms msp now _ (fun h => (hw h).2) hm

/-- Witness for C10 at a concrete state: an account one week plus one
second past its window start, with 30 of 100 weekly and 30 of 300
monthly spent; the week has rolled, the month has not. -/
theorem remaining_views_match_roll_witness :
    remainingWeekly
      ⟨fun _ => ⟨300, 100, 50, false⟩, fun _ _ => false, fun _ _ => false,
        fun _ => ⟨1, 30, 1, 30⟩, fun _ => 0, fun _ => false⟩ 1 (1 + 7 * 86400)
      = 100
    ∧ remainingMonthly
      ⟨fun _ => ⟨300, 100, 50, false⟩, fun _ _ => false, fun _ _ => false,
        fun _ => ⟨1, 30, 1, 30⟩, fun _ => 0, fun _ => false⟩ 1 (1 + 7 * 86400)
      = 270 := by
  have h := remaining_views_match_roll
    ⟨fun _ => ⟨300, 100, 50, false⟩, fun _ _ => false, fun _ _ => false,
      fun _ => ⟨1, 30, 1, 30⟩, fun _ => 0, fun _ => false⟩ 1 (1 + 7 * 86400)
    (by intro h; simp at h) (by intro h; simp at h)
  refine ⟨?_, ?_⟩
  · rw [h.1]; decide
  · rw [h.2]; decide

/-- C1: the authorization decision reproduces the spec's three-rule
precedence exactly: it coincides with the decision table on
(requireUserSig, privileged = owner-or-agent, signature supplied,
signature valid); when `requireUserSig` is set the decision is exactly
signature validity (caller identity and agent status irrelevant); and
whenever the decision is negative — with every earlier validation step
passing — `executeIntent` fails as `Unauthorized`. -/
theorem authOk_spec (p : Policy) (ciu cia sv : Bool) (sig : List Nat)
    (s : VaultState) (sender now : Nat) (intent : Intent)
    (transfer : Nat → Nat → Nat → Bool)
    (recover : Intent → List Nat → Nat) :
    authOk p ciu cia sv sig.length
      = specAuth p.requireUserSig (ciu || cia) (decide (0 < sig.length)) sv
    ∧ (p.requireUserSig = true → authOk p ciu cia sv sig.length = sv)
    ∧ (now ≤ intent.deadline → intent.user ≠ 0 → 0 < intent.amount →
      intent.amount ≤ (s.policyOf intent.user).perTxCap →
      s.merchantAllowed intent.user intent.merchant = true →
      intent.nonce = s.nonces intent.user →
      s.intentUsed intent = false →
      authOk (s.policyOf intent.user) (decide (sender = intent.user))
        (s.agentAllowed intent.user sender)
        (verifyUserSig recover intent sig) sig.length = false →
      executeIntent s sender now intent sig transfer recover
        = .error .unauthorized) := by
  refine ⟨?_, ?_, ?_⟩
  · cases hr : p.requireUserSig <;> cases ciu <;> cases cia <;> cases sv <;>
      by_cases hl : 0 < sig.length <;> simp_all [authOk, specAuth]
  · intro h
    simp [authOk, h]
  · intro h1 h2 h3 h4 h5 h6 h7 h8
    simp [executeIntent, h1, h2, h3, h4, h5, h6, h7, h8]

/-- Witness for C1 at concrete inputs: with `requireUserSig = true`,
the account owner calling with an empty signature is rejected as
`Unauthorized` even though every other check passes. -/
theorem authOk_spec_witness :
    authOk ⟨300, 100, 50, true⟩ true false false 0
      = specAuth true (true || false) (decide (0 < ([] : List Nat).length)) false
    ∧ executeIntent demoStateSig 1 10 demoIntent [] (fun _ _ _ => true)
        (fun _ _ => 0) = .error .unauthorized := by
  constructor
  · exact (authOk_spec ⟨300, 100, 50, true⟩ true false false []
      demoStateSig 1 10 demoIntent (fun _ _ _ => true) (fun _ _ => 0)).1
  · exact (authOk_spec ⟨300, 100, 50, true⟩ true false false []
      demoStateSig 1 10 demoIntent (fun _ _ _ => true) (fun _ _ => 0)).2.2
      (by decide) (by decide) (by decide) (by decide) (by decide) (by decide)
      (by decide) (by decide)

/-- Inversion for a successful `executeIntent`: success forces every
validation step to have passed and fixes the post-state to the
committed state. -/
lemma executeIntent_ok_iff (s : VaultState) (sender now : Nat)
    (intent : Intent) (userSig : List Nat)
    (transfer : Nat → Nat → Nat → Bool)
    (recover : Intent → List Nat → Nat) (s2 : VaultState) :
    executeIntent s sender now intent userSig transfer recover = .ok s2
    ↔ (now ≤ intent.deadline
      ∧ intent.user ≠ 0
      ∧ 0 < intent.amount
      ∧ intent.amount ≤ (s.policyOf intent.user).perTxCap
      ∧ s.merchantAllowed intent.user intent.merchant = true
      ∧ intent.nonce = s.nonces intent.user
      ∧ s.intentUsed intent = false
      ∧ authOk (s.policyOf intent.user) (decide (sender = intent.user))
          (s.agentAllowed intent.user sender)
          (verifyUserSig recover intent userSig) userSig.length = true
      ∧ (rollWindowsIfNeeded (s.spend intent.user) now).weekSpent + intent.amount
          ≤ (s.policyOf intent.user).weeklyCap
      ∧ (rollWindowsIfNeeded (s.spend intent.user) now).monthSpent + intent.amount
          ≤ (s.policyOf intent.user).monthlyCap
      ∧ transfer intent.token intent.merchant intent.amount = true
      ∧ s2 = applyCommit s intent (rollWindowsIfNeeded (s.spend intent.user) now)) := by
  constructor
  · intro h
    rw [executeIntent] at h
    by_cases h1 : now ≤ intent.deadline
    rotate_left
    · rw [if_neg h1] at h; exact Except.noConfusion h
    rw [if_pos h1] at h
    by_cases h2 : intent.user ≠ 0
    rotate_left
    · rw [if_neg h2] at h; exact Except.noConfusion h
    rw [if_pos h2] at h
    by_cases h3 : intent.amount > 0
    rotate_left
    · rw [if_neg h3] at h; exact Except.noConfusion h
    rw [if_pos h3] at h
    by_cases h4 : intent.amount ≤ (s.policyOf intent.user).perTxCap
    rotate_left
    · rw [if_neg h4] at h; exact Except.noConfusion h
    rw [if_pos h4] at h
    by_cases h5 : s.merchantAllowed intent.user intent.merchant = true
    rotate_left
    · rw [if_neg h5] at h; exact Except.noConfusion h
    rw [if_pos h5] at h
    by_cases h6 : intent.nonce = s.nonces intent.user
    rotate_left
    · rw [if_neg h6] at h; exact Except.noConfusion h
    rw [if_pos h6] at h
    by_cases h7 : s.intentUsed intent = false
    rotate_left
    · rw [if_neg h7] at h; exact Except.noConfusion h
    rw [if_pos h7] at h
    by_cases h8 : authOk (s.policyOf intent.user) (decide (sender = intent.user))
        (s.agentAllowed intent.user sender)
        (verifyUserSig recover intent userSig) userSig.length = true
    rotate_left
    · rw [if_neg h8] at h; exact Except.noConfusion h
    rw [if_pos h8] at h
    by_cases h9 : (rollWindowsIfNeeded (s.spend intent.user) now).weekSpent
        + intent.amount ≤ (s.policyOf intent.user).weeklyCap
    rotate_left
    · rw [if_neg h9] at h; exact Except.noConfusion h
    rw [if_pos h9] at h
    by_cases h10 : (rollWindowsIfNeeded (s.spend intent.user) now).monthSpent
        + intent.amount ≤ (s.policyOf intent.user).monthlyCap
    rotate_left
    · rw [if_neg h10] at h; exact Except.noConfusion h
    rw [if_pos h10] at h
    by_cases h11 : transfer intent.token intent.merchant intent.amount = true
    rotate_left
    · rw [if_neg h11] at h; exact Except.noConfusion h
    rw [if_pos h11] at h
    injection h with h12
    exact ⟨h1, h2, h3, h4, h5, h6, h7, h8, h9, h10, h11, h12.symm⟩
  · rintro ⟨h1, h2, h3, h4, h5, h6, h7, h8, h9, h10, h11, rfl⟩
    rw [executeIntent, if_pos h1, if_pos h2, if_pos h3, if_pos h4, if_pos h5,
      if_pos h6, if_pos h7, if_pos h8, if_pos h9, if_pos h10, if_pos h11]

@[simp] lemma applyCommit_policyOf (s : VaultState) (intent : Intent)
    (w : SpendWindow) : (applyCommit s intent w).policyOf = s.policyOf := rfl

@[simp] lemma applyCommit_merchantAllowed (s : VaultState) (intent : Intent)
    (w : SpendWindow) :
    (applyCommit s intent w).merchantAllowed = s.merchantAllowed := rfl

@[simp] lemma applyCommit_agentAllowed (s : VaultState) (intent : Intent)
    (w : SpendWindow) :
    (applyCommit s intent w).agentAllowed = s.agentAllowed := rfl

@[simp] lemma applyCommit_nonces_self (s : VaultState) (intent : Intent)
    (w : SpendWindow) :
    (applyCommit s intent w).nonces intent.user = s.nonces intent.user + 1 := by
  simp [applyCommit]

@[simp] lemma applyCommit_intentUsed_self (s : VaultState) (intent : Intent)
    (w : SpendWindow) : (applyCommit s intent w).intentUsed intent = true := by
  simp [applyCommit]

@[simp] lemma applyCommit_spend_self (s : VaultState) (intent : Intent)
    (w : SpendWindow) :
    (applyCommit s intent w).spend intent.user
      = { w with weekSpent := w.weekSpent + intent.amount,
                 monthSpent := w.monthSpent + intent.amount } := by
  simp [applyCommit]

/-- A stale nonce is reported as soon as the checks preceding it pass,
before the consumed-set, authorization and cap checks are reached. -/
lemma exec_staleNonce (s : VaultState) (sender now : Nat) (intent : Intent)
    (sig : List Nat) (transfer : Nat → Nat → Nat → Bool)
    (recover : Intent → List Nat → Nat)
    (h1 : now ≤ intent.deadline) (h2 : intent.user ≠ 0)
    (h3 : intent.amount > 0)
    (h4 : intent.amount ≤ (s.policyOf intent.user).perTxCap)
    (h5 : s.merchantAllowed intent.user intent.merchant = true)
    (h6 : intent.nonce ≠ s.nonces intent.user) :
    executeIntent s sender now intent sig transfer recover
      = .error .staleNonce := by
  rw [executeIntent, if_pos h1, if_pos h2, if_pos h3, if_pos h4, if_pos h5,
    if_neg h6]

/-- A consumed intent hash is reported once the checks preceding the
consumed-set lookup pass. -/
lemma exec_intentUsed (s : VaultState) (sender now : Nat) (intent : Intent)
    (sig : List Nat) (transfer : Nat → Nat → Nat → Bool)
    (recover : Intent → List Nat → Nat)
    (h1 : now ≤ intent.deadline) (h2 : intent.user ≠ 0)
    (h3 : intent.amount > 0)
    (h4 : intent.amount ≤ (s.policyOf intent.user).perTxCap)
    (h5 : s.merchantAllowed intent.user intent.merchant = true)
    (h6 : intent.nonce = s.nonces intent.user)
    (h7 : s.intentUsed intent = true) :
    executeIntent s sender now intent sig transfer recover
      = .error .intentAlreadyUsed := by
  rw [executeIntent, if_pos h1, if_pos h2, if_pos h3, if_pos h4, if_pos h5,
    if_pos h6, if_neg (by simp [h7])]

/-- C6: an intent whose nonce differs from the account's current nonce
fails with `StaleNonce` regardless of caller identity, signature and
oracles — authorization is never consulted — provided the checks that
the fixed validation order places before the nonce check (deadline,
non-null account, positive amount, per-tx cap, merchant allowlist)
pass, the first failing check determining the reported error. -/
theorem executeIntent_staleNonce_first (s : VaultState) (sender now : Nat)
    (intent : Intent) (sig : List Nat)
    (transfer : Nat → Nat → Nat → Bool)
    (recover : Intent → List Nat → Nat)
    (h1 : now ≤ intent.deadline) (h2 : intent.user ≠ 0)
    (h3 : 0 < intent.amount)
    (h4 : intent.amount ≤ (s.policyOf intent.user).perTxCap)
    (h5 : s.merchantAllowed intent.user intent.merchant = true)
    (h6 : intent.nonce ≠ s.nonces intent.user) :
    executeIntent s sender now intent sig transfer recover
      = .error .staleNonce :=
  exec_staleNonce s sender now intent sig transfer recover h1 h2 h3 h4 h5 h6

/-- Witness for C6 at concrete inputs: an intent with nonce 5 against
current nonce 0, submitted by the account owner, fails `StaleNonce`. -/
theorem executeIntent_staleNonce_first_witness :
    executeIntent demoState 1 10 ⟨1, 2, 3, 40, 1000, 0, 5⟩ []
      (fun _ _ _ => true) (fun _ _ => 0) = .error .staleNonce :=
  executeIntent_staleNonce_first demoState 1 10 ⟨1, 2, 3, 40, 1000, 0, 5⟩ []
    (fun _ _ _ => true) (fun _ _ => 0) (by decide) (by decide) (by decide)
    (by decide) (by decide) (by decide)

/-- C2: a successful `executeIntent` permanently consumes the intent:
the account's nonce advances by exactly 1, the intent's hash enters
the consumed set, re-submitting the identical intent fails with
`StaleNonce`, and even if the account's nonce map were externally
replaced by one giving the intent's nonce back, the second execution
fails with `IntentAlreadyUsed` — the same intent never commits twice. -/
theorem executeIntent_consumes (s : VaultState) (sender now : Nat)
    (intent : Intent) (sig : List Nat)
    (transfer : Nat → Nat → Nat → Bool)
    (recover : Intent → List Nat → Nat) (s2 : VaultState)
    (h : executeIntent s sender now intent sig transfer recover = .ok s2) :
    s2.nonces intent.user = s.nonces intent.user + 1
    ∧ s2.intentUsed intent = true
    ∧ executeIntent s2 sender now intent sig transfer recover
        = .error .staleNonce
    ∧ (∀ n : Nat → Nat, n intent.user = intent.nonce →
      executeIntent { s2 with nonces := n } sender now intent sig transfer
        recover = .error .intentAlreadyUsed) := by
  obtain ⟨h1, h2, h3, h4, h5, h6, h7, h8, h9, h10, h11, h12⟩ :=
    (executeIntent_ok_iff s sender now intent sig transfer recover s2).mp h
  subst h12
  refine ⟨by simp, by simp, ?_, ?_⟩
  · exact exec_staleNonce _ sender now intent sig transfer recover h1 h2 h3
      (by simpa using h4) (by simpa using h5) (by simp; omega)
  · intro n hn
    exact exec_intentUsed _ sender now intent sig transfer recover h1 h2 h3
      (by simpa using h4) (by simpa using h5) (by simpa using hn.symm)
      (by simp)

/-- Witness for C2 at concrete inputs: allowlisted agent 4 executes
`demoIntent` without a signature; the nonce advances to 1, the intent
is consumed, and both replay attempts fail. -/
theorem executeIntent_consumes_witness :
    demoCommitted.nonces demoIntent.user
        = demoState.nonces demoIntent.user + 1
    ∧ demoCommitted.intentUsed demoIntent = true
    ∧ executeIntent demoCommitted 4 10 demoIntent [] (fun _ _ _ => true)
        (fun _ _ => 0) = .error .staleNonce
    ∧ executeIntent { demoCommitted with nonces := fun _ => 0 } 4 10
        demoIntent [] (fun _ _ _ => true) (fun _ _ => 0)
        = .error .intentAlreadyUsed := by
  have h := executeIntent_consumes demoState 4 10 demoIntent []
    (fun _ _ _ => true) (fun _ _ => 0) demoCommitted rfl
  exact ⟨h.1, h.2.1, h.2.2.1, h.2.2.2 (fun _ => 0) rfl⟩

/-- Inversion for `TransferFailed`: the error is reported only when
every validation, authorization and cap check passed and the external
transfer returned false. -/
lemma exec_transferFailed_inv (s : VaultState) (sender now : Nat)
    (intent : Intent) (sig : List Nat)
    (transfer : Nat → Nat → Nat → Bool)
    (recover : Intent → List Nat → Nat)
    (h : executeIntent s sender now intent sig transfer recover
      = .error .transferFailed) :
    now ≤ intent.deadline
    ∧ intent.user ≠ 0
    ∧ 0 < intent.amount
    ∧ intent.amount ≤ (s.policyOf intent.user).perTxCap
    ∧ s.merchantAllowed intent.user intent.merchant = true
    ∧ intent.nonce = s.nonces intent.user
    ∧ s.intentUsed intent = false
    ∧ authOk (s.policyOf intent.user) (decide (sender = intent.user))
        (s.agentAllowed intent.user sender)
        (verifyUserSig recover intent sig) sig.length = true
    ∧ (rollWindowsIfNeeded (s.spend intent.user) now).weekSpent + intent.amount
        ≤ (s.policyOf intent.user).weeklyCap
    ∧ (rollWindowsIfNeeded (s.spend intent.user) now).monthSpent + intent.amount
        ≤ (s.policyOf intent.user).monthlyCap := by
  rw [executeIntent] at h
  by_cases h1 : now ≤ intent.deadline
  rotate_left
  · rw [if_neg h1] at h; injection h with hx; exact absurd hx (by decide)
  rw [if_pos h1] at h
  by_cases h2 : intent.user ≠ 0
  rotate_left
  · rw [if_neg h2] at h; injection h with hx; exact absurd hx (by decide)
  rw [if_pos h2] at h
  by_cases h3 : intent.amount > 0
  rotate_left
  · rw [if_neg h3] at h; injection h with hx; exact absurd hx (by decide)
  rw [if_pos h3] at h
  by_cases h4 : intent.amount ≤ (s.policyOf intent.user).perTxCap
  rotate_left
  · rw [if_neg h4] at h; injection h with hx; exact absurd hx (by decide)
  rw [if_pos h4] at h
  by_cases h5 : s.merchantAllowed intent.user intent.merchant = true
  rotate_left
  · rw [if_neg h5] at h; injection h with hx; exact absurd hx (by decide)
  rw [if_pos h5] at h
  by_cases h6 : intent.nonce = s.nonces intent.user
  rotate_left
  · rw [if_neg h6] at h; injection h with hx; exact absurd hx (by decide)
  rw [if_pos h6] at h
  by_cases h7 : s.intentUsed intent = false
  rotate_left
  · rw [if_neg h7] at h; injection h with hx; exact absurd hx (by decide)
  rw [if_pos h7] at h
  by_cases h8 : authOk (s.policyOf intent.user) (decide (sender = intent.user))
      (s.agentAllowed intent.user sender)
      (verifyUserSig recover intent sig) sig.length = true
  rotate_left
  · rw [if_neg h8] at h; injection h with hx; exact absurd hx (by decide)
  rw [if_pos h8] at h
  by_cases h9 : (rollWindowsIfNeeded (s.spend intent.user) now).weekSpent
      + intent.amount ≤ (s.policyOf intent.user).weeklyCap
  rotate_left
  · rw [if_neg h9] at h; injection h with hx; exact absurd hx (by decide)
  rw [if_pos h9] at h
  by_cases h10 : (rollWindowsIfNeeded (s.spend intent.user) now).monthSpent
      + intent.amount ≤ (s.policyOf intent.user).monthlyCap
  rotate_left
  · rw [if_neg h10] at h; injection h with hx; exact absurd hx (by decide)
  exact ⟨h1, h2, h3, h4, h5, h6, h7, h8, h9, h10⟩

/-- C4: every failing `executeIntent` is atomic — at the transaction
level the pre-call state is restored exactly (nonce, consumed set and
spend windows included), and in the `TransferFailed` case specifically
the intent is not considered consumed: retrying the identical intent
(same nonce, same hash) against the same state with a succeeding
transfer commits normally. -/
theorem executeIntent_atomic (s : VaultState) (sender now : Nat)
    (intent : Intent) (sig : List Nat)
    (transfer : Nat → Nat → Nat → Bool)
    (recover : Intent → List Nat → Nat) (e : Err)
    (h : executeIntent s sender now intent sig transfer recover = .error e) :
    executeIntentTx s sender now intent sig transfer recover = (s, some e)
    ∧ (executeIntentTx s sender now intent sig transfer recover).1.nonces
        = s.nonces
    ∧ (executeIntentTx s sender now intent sig transfer recover).1.intentUsed
        = s.intentUsed
    ∧ (executeIntentTx s sender now intent sig transfer recover).1.spend
        = s.spend
    ∧ (e = .transferFailed →
      executeIntent s sender now intent sig (fun _ _ _ => true) recover
        = .ok (applyCommit s intent
            (rollWindowsIfNeeded (s.spend intent.user) now))) := by
  refine ⟨by simp [executeIntentTx, h], by simp [executeIntentTx, h],
    by simp [executeIntentTx, h], by simp [executeIntentTx, h], ?_⟩
  rintro rfl
  obtain ⟨h1, h2, h3, h4, h5, h6, h7, h8, h9, h10⟩ :=
    exec_transferFailed_inv s sender now intent sig transfer recover h
  exact (executeIntent_ok_iff s sender now intent sig (fun _ _ _ => true)
    recover _).mpr ⟨h1, h2, h3, h4, h5, h6, h7, h8, h9, h10, rfl, rfl⟩

/-- Witness for C4 at concrete inputs: the transfer oracle fails, the
transaction leaves `demoState` untouched, and the identical intent
then succeeds with a working transfer. -/
theorem executeIntent_atomic_witness :
    executeIntentTx demoState 4 10 demoIntent [] (fun _ _ _ => false)
      (fun _ _ => 0) = (demoState, some .transferFailed)
    ∧ executeIntent demoState 4 10 demoIntent [] (fun _ _ _ => true)
        (fun _ _ => 0)
      = .ok (applyCommit demoState demoIntent
          (rollWindowsIfNeeded (demoState.spend demoIntent.user) 10)) := by
  have h := executeIntent_atomic demoState 4 10 demoIntent []
    (fun _ _ _ => false) (fun _ _ => 0) .transferFailed rfl
  exact ⟨h.1, h.2.2.2.2 rfl⟩

/-- C5: after every successful commit the stored window satisfies
`weekSpent ≤ weeklyCap` and `monthSpent ≤ monthlyCap` (against the
unchanged policy), with both counters incremented by exactly the
intent's amount; and — with the checks preceding the reservation
passing — the reservation fails `WeeklyCapExceeded` when the rolled
week spend plus the amount exceeds the weekly cap, and fails
`MonthlyCapExceeded` when the week fits but the rolled month spend
plus the amount exceeds the monthly cap. -/
theorem executeIntent_caps (s : VaultState) (sender now : Nat)
    (intent : Intent) (sig : List Nat)
    (transfer : Nat → Nat → Nat → Bool)
    (recover : Intent → List Nat → Nat) (s2 : VaultState) :
    (executeIntent s sender now intent sig transfer recover = .ok s2 →
      (s2.spend intent.user).weekSpent ≤ (s2.policyOf intent.user).weeklyCap
      ∧ (s2.spend intent.user).monthSpent ≤ (s2.policyOf intent.user).monthlyCap
      ∧ (s2.spend intent.user).weekSpent
          = (rollWindowsIfNeeded (s.spend intent.user) now).weekSpent
            + intent.amount
      ∧ (s2.spend intent.user).monthSpent
          = (rollWindowsIfNeeded (s.spend intent.user) now).monthSpent
            + intent.amount)
    ∧ (now ≤ intent.deadline → intent.user ≠ 0 → 0 < intent.amount →
      intent.amount ≤ (s.policyOf intent.user).perTxCap →
      s.merchantAllowed intent.user intent.merchant = true →
      intent.nonce = s.nonces intent.user →
      s.intentUsed intent = false →
      authOk (s.policyOf intent.user) (decide (sender = intent.user))
        (s.agentAllowed intent.user sender)
        (verifyUserSig recover intent sig) sig.length = true →
      ((s.policyOf intent.user).weeklyCap
          < (rollWindowsIfNeeded (s.spend intent.user) now).weekSpent
            + intent.amount →
        executeIntent s sender now intent sig transfer recover
          = .error .weeklyCapExceeded)
      ∧ ((rollWindowsIfNeeded (s.spend intent.user) now).weekSpent
            + intent.amount ≤ (s.policyOf intent.user).weeklyCap →
        (s.policyOf intent.user).monthlyCap
          < (rollWindowsIfNeeded (s.spend intent.user) now).monthSpent
            + intent.amount →
        executeIntent s sender now intent sig transfer recover
          = .error .monthlyCapExceeded)) := by
  constructor
  · intro h
    obtain ⟨h1, h2, h3, h4, h5, h6, h7, h8, h9, h10, h11, h12⟩ :=
      (executeIntent_ok_iff s sender now intent sig transfer recover s2).mp h
    subst h12
    exact ⟨by simpa using h9, by simpa using h10, by simp, by simp⟩
  · intro h1 h2 h3 h4 h5 h6 h7 h8
    constructor
    · intro hw
      rw [executeIntent, if_pos h1, if_pos h2, if_pos h3, if_pos h4,
        if_pos h5, if_pos h6, if_pos (by simp [h7]), if_pos h8,
        if_neg (by omega)]
    · intro hw hm
      rw [executeIntent, if_pos h1, if_pos h2, if_pos h3, if_pos h4,
        if_pos h5, if_pos h6, if_pos (by simp [h7]), if_pos h8,
        if_pos hw, if_neg (by omega)]

/-- Witness for C5 at concrete inputs: the committed demo execution
respects both caps, an over-week intent fails `WeeklyCapExceeded`, and
a week-fitting but over-month intent fails `MonthlyCapExceeded`. -/
theorem executeIntent_caps_witness :
    ((demoCommitted.spend demoIntent.user).weekSpent
        ≤ (demoCommitted.policyOf demoIntent.user).weeklyCap
      ∧ (demoCommitted.spend demoIntent.user).monthSpent
        ≤ (demoCommitted.policyOf demoIntent.user).monthlyCap)
    ∧ executeIntent { demoState with spend := fun _ => ⟨10, 90, 10, 90⟩ } 4 20
        demoIntent [] (fun _ _ _ => true) (fun _ _ => 0)
        = .error .weeklyCapExceeded
    ∧ executeIntent { demoState with spend := fun _ => ⟨10, 50, 10, 280⟩ } 4 20
        demoIntent [] (fun _ _ _ => true) (fun _ _ => 0)
        = .error .monthlyCapExceeded := by
  refine ⟨?_, ?_, ?_⟩
  · have h := (executeIntent_caps demoState 4 10 demoIntent []
      (fun _ _ _ => true) (fun _ _ => 0) demoCommitted).1 rfl
    exact ⟨h.1, h.2.1⟩
  · exact ((executeIntent_caps { demoState with spend := fun _ => ⟨10, 90, 10, 90⟩ }
      4 20 demoIntent [] (fun _ _ _ => true) (fun _ _ => 0) demoState).2
      (by decide) (by decide) (by decide) (by decide) (by decide) (by decide)
      (by decide) (by decide)).1 (by decide)
  · exact ((executeIntent_caps { demoState with spend := fun _ => ⟨10, 50, 10, 280⟩ }
      4 20 demoIntent [] (fun _ _ _ => true) (fun _ _ => 0) demoState).2
      (by decide) (by decide) (by decide) (by decide) (by decide) (by decide)
      (by decide) (by decide)).2 (by decide) (by decide)

/-- The zero window of a freshly created account satisfies the
reachability invariant. -/
lemma windowInv_zero : WindowInv ⟨0, 0, 0, 0⟩ := by
  intro _; exact ⟨rfl, rfl, rfl, rfl⟩

/-- `executeIntent` preserves the window reachability invariant for
every account at every positive timestamp: the non-trivial effects are
the roll (which stamps `now ≠ 0` into any unset start) and the counter
increments (which only touch a window whose starts are set). -/
lemma executeIntent_preserves_windowInv (s : VaultState) (sender now : Nat)
    (intent : Intent) (sig : List Nat)
    (transfer : Nat → Nat → Nat → Bool)
    (recover : Intent → List Nat → Nat) (s2 : VaultState) (u : Nat)
    (hnow : 0 < now) (hinv : WindowInv (s.spend u))
    (h : executeIntent s sender now intent sig transfer recover = .ok s2) :
    WindowInv (s2.spend u) := by
  obtain ⟨h1, h2, h3, h4, h5, h6, h7, h8, h9, h10, h11, h12⟩ :=
    (executeIntent_ok_iff s sender now intent sig transfer recover s2).mp h
  subst h12
  by_cases hu : u = intent.user
  · subst hu
    simp only [applyCommit_spend_self]
    intro hz
    rcases hz with hz | hz <;>
    · exfalso
      revert hz
      simp only [rollWindowsIfNeeded]
      split_ifs with ha hb hc hd he <;> simp_all [WindowInv] <;> omega
  · have : (applyCommit s intent
        (rollWindowsIfNeeded (s.spend intent.user) now)).spend u = s.spend u := by
      simp [applyCommit, Function.update_noteq hu]
    rw [this]
    exact hinv
